import Mathlib

/-!
Verification development for the mexpr micro-expression engine
(lexer → Pratt parser → interpreter over dynamic JSON-like values).

The Go source is embedded shallowly:

* Go `any` (dynamic) values become the inductive `Value`.  Go's many
  machine-integer widths (`int`, `int8`, …, `uint64`) are collapsed into the
  single constructor `Value.int`, and `float64`/`float32` into `Value.float`
  carrying an exact rational; every code path relevant to the claims treats
  all integer widths uniformly (see `toNumber`, `normalize`, `toBool` in
  conversions.go) so the collapse loses nothing the claims depend on.
  Arithmetic is modelled exactly over ℚ; the claims' programs only exercise
  values on which float64 arithmetic is exact, except for float64's finite
  range: the overflow of a division to ±Inf is modelled separately by
  `float64Div`, which maps an exact quotient at or above the IEEE
  round-to-nearest overflow threshold to an infinity.  `math.Pow` is
  modelled for integral exponents (the only ones produced by the claims'
  programs).
* Fallible Go code returns `Except Err _`.  Go run-time panics (nil-pointer
  dereference, failed type assertion, out-of-range index, comparison of
  uncomparable types, integer division by zero) are a separate constructor
  `Err.gopanic`, distinct from the `Error` values the library returns.
* The interpreter in interpreter.go writes into AST nodes (the NodeSlice
  case), so the embedded `run` threads the tree through evaluation and
  returns the possibly-updated tree together with the result.
* Recursion in the interpreter and parser is bounded by a `fuel` argument so
  that every definition is a structural recursion the kernel can evaluate;
  the Go code has no such bound (its stack is the bound).  Exhausting fuel
  yields the distinguished outcome `Err.fuelOut`, which no theorem relies on.
* Go indexes strings by byte; the model indexes by character.  The two agree
  on ASCII data, which is all the claims use.
-/

/-- Exact model of Go `float64` values: an unreduced integer fraction.
Every operation the claims exercise is exact in float64 (small integers and
their sums/products), so an exact rational mirrors the code; the fraction is
kept unreduced so that every operation is a plain integer computation the
kernel can evaluate, and equality/ordering compare the represented values by
cross-multiplication (float64 `==`/`<` on exactly-represented values). -/
structure GoNum where
  num : Int
  den : Int
deriving DecidableEq

/-- The float64 a Go `int` converts to. -/
def qInt (n : Int) : GoNum := ⟨n, 1⟩

def qAdd (p q : GoNum) : GoNum := ⟨p.num * q.den + q.num * p.den, p.den * q.den⟩

def qSub (p q : GoNum) : GoNum := ⟨p.num * q.den - q.num * p.den, p.den * q.den⟩

def qMul (p q : GoNum) : GoNum := ⟨p.num * q.num, p.den * q.den⟩

def qDiv (p q : GoNum) : GoNum := ⟨p.num * q.den, p.den * q.num⟩

def qNeg (p : GoNum) : GoNum := ⟨-p.num, p.den⟩

/-- Value equality of two fractions (float64 `==`). -/
def qEqB (p q : GoNum) : Bool := p.num * q.den == q.num * p.den

/-- Value order of two fractions (float64 `<`). -/
def qLtB (p q : GoNum) : Bool :=
  let s := (p.den * q.den).sign
  decide (s * (p.num * q.den) < s * (q.num * p.den))

def qLeB (p q : GoNum) : Bool :=
  let s := (p.den * q.den).sign
  decide (s * (p.num * q.den) ≤ s * (q.num * p.den))

/-- `0 < value`. -/
def qPosB (p : GoNum) : Bool := decide (0 < p.num * p.den)

/-- `value < 0`. -/
def qNegB (p : GoNum) : Bool := decide (p.num * p.den < 0)

/-- Go's `int(f)` conversion of a float64: truncation toward zero. -/
def truncInt (q : GoNum) : Int :=
  q.num.sign * q.den.sign * ((q.num.natAbs / q.den.natAbs : Nat) : Int)

/-- Whether the represented value is an integer. -/
def qIsIntB (q : GoNum) : Bool := qEqB (qInt (truncInt q)) q

/-- `math.Pow`, modelled exactly for integral exponents.  A non-integral
exponent makes `math.Pow` real-valued (not representable exactly); no
program in the claims produces one, and the model returns 0 there. -/
def powGo (b e : GoNum) : GoNum :=
  if qIsIntB e then
    let k := (truncInt e).natAbs
    if qNegB e then ⟨b.den ^ k, b.num ^ k⟩ else ⟨b.num ^ k, b.den ^ k⟩
  else ⟨0, 1⟩

/-- Dynamic value universe: the Go `any` values the engine manipulates
(`null | bool | int-widths | float | string | []byte | []any |
map[string]any`).  `map[any]any` inputs are not modelled separately: every
relevant branch treats them identically to `map[string]any` after key
stringification. -/
inductive Value where
  | null
  | bool (b : Bool)
  | int (n : Int)
  | float (q : GoNum)
  | str (s : String)
  | bytes (s : String)
  | arr (xs : List Value)
  | map (entries : List (String × Value))

/-- Errors and abnormal outcomes of the embedded code. -/
inductive Err where
  /-- An `Error` value created by `NewError(offset, length, msg)`. -/
  | err (offset length : Nat) (msg : String)
  /-- A Go run-time panic (the program crashes instead of returning). -/
  | gopanic (msg : String)
  /-- Model artifact: the fuel bound was hit (never occurs at the fuel
  amounts used by the theorems). -/
  | fuelOut

/-- AST node kinds, from parser.go's `NodeType` enumeration (current
version, including where/contains/before/after used by interpreter.go and
the type checker). -/
inductive NodeType where
  | unknown
  | identifier
  | literal
  | add
  | subtract
  | multiply
  | divide
  | modulus
  | power
  | equal
  | notEqual
  | lessThan
  | lessThanEqual
  | greaterThan
  | greaterThanEqual
  | andOp
  | orOp
  | notOp
  | fieldSelect
  | arrayIndex
  | slice
  | sign
  | inOp
  | containsOp
  | startsWith
  | endsWith
  | before
  | after
  | whereOp
deriving DecidableEq

/-- AST node: `Node{Type, Value, Offset, Length, Left, Right}`.  `Value`
holds the identifier name or sign text (as `Value.str`), a literal's decoded
value, or — for slice nodes — the two-element bound buffer the interpreter
writes into. -/
inductive Node where
  | mk (ty : NodeType) (val : Value) (offset length : Nat)
       (left right : Option Node)

namespace Node

def ty : Node → NodeType
  | .mk t _ _ _ _ _ => t

def val : Node → Value
  | .mk _ v _ _ _ _ => v

def offset : Node → Nat
  | .mk _ _ o _ _ _ => o

def length : Node → Nat
  | .mk _ _ _ l _ _ => l

def left : Node → Option Node
  | .mk _ _ _ _ l _ => l

def right : Node → Option Node
  | .mk _ _ _ _ _ r => r

end Node

/-! ## conversions.go -/

/-- `isNumber`: true for every Go numeric dynamic type. -/
def isNumber : Value → Bool
  | .int _ => true
  | .float _ => true
  | _ => false

/-- `isString`: true for `string`, `rune`, `byte`, `[]byte`.  (`rune` and
`byte` are integer aliases in Go; values of those static types do not arise
in the claims' programs, so they are carried by `Value.int` and classified
as numbers here.) -/
def isString : Value → Bool
  | .str _ => true
  | .bytes _ => true
  | _ => false

/-- `isSlice`: true exactly for `[]any`. -/
def isSlice : Value → Bool
  | .arr _ => true
  | _ => false

/-- `toString`: Go's explicit string conversion — strings, runes, bytes and
byte slices become their text; everything else is rendered with `fmt`'s
`"%v"` verb.  The `%v` rendering is modelled exactly for scalars (integral
floats print as integers, matching `%g` within float64's exact range);
element-wise rendering of nested containers is not modelled (no claim
inspects such a message), containers render as a fixed marker. -/
def toStringGo : Value → String
  | .str s => s
  | .bytes s => s
  | .int n => toString n
  | .float q =>
    if qIsIntB q then toString (truncInt q)
    else toString q.num ++ "/" ++ toString q.den
  | .bool true => "true"
  | .bool false => "false"
  | .null => "<nil>"
  | .arr _ => "[...]"
  | .map _ => "map[...]"

/-- `toNumber(ast, v)`: convert any numeric value to float64, else an error
located at the given node position. -/
def toNumber (offset length : Nat) : Value → Except Err GoNum
  | .int n => .ok (qInt n)
  | .float q => .ok q
  | v => .error (.err offset length ("unable to convert to number: " ++ toStringGo v))

/-- `toBool`: Go truthiness — booleans themselves, positive numbers,
non-empty strings/byte-slices/arrays/maps; everything else (including nil)
is false. -/
def toBool : Value → Bool
  | .bool b => b
  | .int n => 0 < n
  | .float q => qPosB q
  | .str s => s.length != 0
  | .bytes s => s.length != 0
  | .arr xs => xs.length != 0
  | .map m => m.length != 0
  | .null => false

/-- `normalize`: widen every integer kind to float64 and view byte buffers
as text, for `==`/`!=` comparisons. -/
def normalizeGo : Value → Value
  | .int n => .float (qInt n)
  | .bytes s => .str s
  | v => v

/-! ## interpreter.go helpers -/

/-- Go's `%` on `int`: truncated remainder, sign of the dividend. -/
def tmodGo (a b : Int) : Int :=
  a.sign * ((a.natAbs % b.natAbs : Nat) : Int)

/-- Outcome of one float64 arithmetic operation, seen with float64's
finite range: either a finite value (carried exactly) or an infinity. -/
inductive Float64Out where
  | finite (q : GoNum)
  | posInf
  | negInf
deriving DecidableEq

set_option exponentiation.threshold 2048 in
/-- The IEEE 754 round-to-nearest-even overflow threshold of float64
(binary64): an operation whose exact result has magnitude at or above
(2 − 2^-53)·2^1023 = 2^1024 − 2^970 rounds to ±Inf; strictly below it, the
result rounds to a finite double (the largest being 2^1024 − 2^971). -/
def f64InfThreshold : Int := ((2 ^ 1024 : Nat) : Int) - ((2 ^ 970 : Nat) : Int)

/-- Whether the represented value's magnitude reaches the float64 overflow
threshold, i.e. |num/den| ≥ threshold. -/
def qOverflowsB (q : GoNum) : Bool :=
  decide (f64InfThreshold * (q.den.natAbs : Int) ≤ (q.num.natAbs : Int))

/-- The NodeDivide case's `left / right` as Go executes it on float64
values (finite operands, non-zero divisor — the code checks the divisor
before dividing): the quotient overflows to +Inf or −Inf when its exact
magnitude reaches the float64 overflow threshold, and is otherwise finite
(carried exactly; rounding of in-range results is not modelled — every
in-range quotient the claims exercise is exactly representable). -/
def float64Div (l r : GoNum) : Float64Out :=
  let q := qDiv l r
  if qOverflowsB q then (if qNegB q then .negInf else .posInf) else .finite q

/-- Go interface equality `x == y` as used on dynamic values: equal dynamic
types compare by value, different dynamic types are unequal, and comparing
two values of the same uncomparable dynamic type (slices, maps) is a
run-time panic. -/
def goEq : Value → Value → Except Err Bool
  | .null, .null => .ok true
  | .bool a, .bool b => .ok (decide (a = b))
  | .int a, .int b => .ok (decide (a = b))
  | .float a, .float b => .ok (qEqB a b)
  | .str a, .str b => .ok (decide (a = b))
  | .bytes _, .bytes _ => .error (.gopanic "comparing uncomparable type []uint8")
  | .arr _, .arr _ => .error (.gopanic "comparing uncomparable type []interface {}")
  | .map _, .map _ => .error (.gopanic "comparing uncomparable type map[string]interface {}")
  | _, _ => .ok false

/-- The `for _, item := range a { if item == resultLeft { return true } }`
membership loop of the NodeIn / NodeContains cases (raw `==`, no
normalization). -/
def memGo (target : Value) : List Value → Except Err Bool
  | [] => .ok false
  | x :: rest =>
    match goEq x target with
    | .error e => .error e
    | .ok true => .ok true
    | .ok false => memGo target rest

/-- `m[k] != nil`: key lookup counting only keys whose stored value is
non-nil (the NodeIn / NodeContains map branches). -/
def mapHasNonNil (m : List (String × Value)) (k : String) : Bool :=
  match m.lookup k with
  | some .null => false
  | none => false
  | some _ => true

/-- Whether the first character list is a prefix of the second. -/
def charsPrefix : List Char → List Char → Bool
  | [], _ => true
  | _ :: _, [] => false
  | c :: cs, d :: ds => c == d && charsPrefix cs ds

/-- Whether the needle occurs contiguously inside the haystack. -/
def charsContains (needle : List Char) : List Char → Bool
  | [] => charsPrefix needle []
  | d :: rest => charsPrefix needle (d :: rest) || charsContains needle rest

/-- `strings.Contains(haystack, needle)`. -/
def strContainsGo (haystack needle : String) : Bool :=
  charsContains needle.data haystack.data

/-- Position info of a child node, for `toNumber(ast.Left, …)`-style error
locations (only consulted after the child evaluated successfully, so the
`none` default is unreachable). -/
def locOf : Option Node → Nat × Nat
  | some n => (n.offset, n.length)
  | none => (0, 0)

/-- `i.run(child, value)` on a child pointer: a nil child is a nil-pointer
dereference panic.  Threads the (possibly updated) child back. -/
def runChild (f : Node → Value → Except Err Value × Node) :
    Option Node → Value → Except Err Value × Option Node
  | none, _ => (.error (.gopanic "invalid memory address or nil pointer dereference"), none)
  | some n, v =>
    let p := f n v
    (p.1, some p.2)

/-- The per-element loop of the NodeWhere case.  The Go code runs the
predicate as `resultRight, _ := i.run(ast.Right, item)` — the returned
Error is discarded into `_`, and the following `if i.strict && err != nil`
tests the stale outer `err` (necessarily nil at that point), so an Error
from the predicate leaves `resultRight` nil and the element is silently
excluded.  Run-time panics, by contrast, unwind the whole evaluation. -/
def whereLoop (step : Option Node → Value → Except Err Value × Option Node) :
    Option Node → List Value → Except Err (List Value) × Option Node
  | rn, [] => (.ok [], rn)
  | rn, item :: rest =>
    let p := step rn item
    match p.1 with
    | .error (.gopanic m) => (.error (.gopanic m), p.2)
    | .error .fuelOut => (.error .fuelOut, p.2)
    | res =>
      let keep := match res with
        | .ok v => toBool v
        | _ => false
      match whereLoop step p.2 rest with
      | (.ok vs, rn'') => (.ok (if keep then item :: vs else vs), rn'')
      | (.error e, rn'') => (.error e, rn'')

/-- The interpreter: `interpreter.run(ast, value)` from interpreter.go, with
the strict flag of `StrictMode`.  Returns both the evaluation outcome and
the tree after evaluation (the Go code holds the tree by pointer and the
NodeSlice case writes into it).  `fuel` bounds recursion depth; every
theorem uses enough fuel that `Err.fuelOut` cannot occur. -/
def run : Nat → Bool → Node → Value → Except Err Value × Node
  | 0, _, ast, _ => (.error .fuelOut, ast)
  | fuel + 1, strict, ast, value =>
    match ast with
    | .mk nty nval noff nlen nl nr =>
      match nty with
      | .identifier =>
        -- case NodeIdentifier: ast.Value.(string), then the special
        -- pseudo-properties fall through to map lookup when they do not
        -- match the value's kind.
        (fun r => (r, Node.mk nty nval noff nlen nl nr)) <| match nval with
        | .str name =>
          if name = "@" then .ok value
          else
            let special : Option Value :=
              if name = "length" then
                match value with
                | .str s => some (.int s.length)
                | .arr xs => some (.int xs.length)
                | _ => none
              else if name = "lower" then
                match value with
                | .str s => some (.str s.toLower)
                | _ => none
              else if name = "upper" then
                match value with
                | .str s => some (.str s.toUpper)
                | _ => none
              else none
            match special with
            | some v => .ok v
            | none =>
              match value with
              | .map m =>
                if !strict then .ok ((m.lookup name).getD .null)
                else
                  match m.lookup name with
                  | some v => .ok v
                  | none => .error (.err noff nlen
                      ("cannot get " ++ name ++ " from " ++ toStringGo value))
              | _ => .error (.err noff nlen
                  ("cannot get " ++ name ++ " from " ++ toStringGo value))
        | _ => .error (.gopanic "interface conversion: interface {} is not string")
      | .fieldSelect =>
        -- case NodeFieldSelect: evaluate left, then right with the result
        -- as the new ambient value.
        let pl := runChild (run fuel strict) nl value
        match pl.1 with
        | .error e => (.error e, Node.mk nty nval noff nlen pl.2 nr)
        | .ok lv =>
          let pr := runChild (run fuel strict) nr lv
          (pr.1, Node.mk nty nval noff nlen pl.2 pr.2)
      | .arrayIndex =>
        -- case NodeArrayIndex.
        let pl := runChild (run fuel strict) nl value
        match pl.1 with
        | .error e => (.error e, Node.mk nty nval noff nlen pl.2 nr)
        | .ok lv =>
          if !(isSlice lv) && !(isString lv) then
            (.error (.err noff nlen ("can only index strings or arrays but got " ++ toStringGo lv)),
             Node.mk nty nval noff nlen pl.2 nr)
          else
            let pr := runChild (run fuel strict) nr value
            let node' := Node.mk nty nval noff nlen pl.2 pr.2
            match pr.1 with
            | .error e => (.error e, node')
            | .ok rv =>
              (fun r => (r, node')) <| match rv with
              | .arr bounds =>
                -- slice: resultRight.([]any)[0] and [1]
                match bounds with
                | b0 :: b1 :: _ =>
                  match toNumber noff nlen b0 with
                  | .error e => .error e
                  | .ok start₀ =>
                    match toNumber noff nlen b1 with
                    | .error e => .error e
                    | .ok end₀ =>
                      match lv with
                      | .arr xs =>
                        let start := if qNegB start₀ then qAdd start₀ (qInt xs.length) else start₀
                        let stop := if qNegB end₀ then qAdd end₀ (qInt xs.length) else end₀
                        let lo := truncInt start
                        let hi := truncInt stop + 1
                        if 0 ≤ lo ∧ lo ≤ hi ∧ hi ≤ xs.length then
                          .ok (.arr ((xs.drop lo.toNat).take (hi - lo).toNat))
                        else .error (.gopanic "runtime error: slice bounds out of range")
                      | _ =>
                        let s := (toStringGo lv).data
                        let start := if qNegB start₀ then qAdd start₀ (qInt s.length) else start₀
                        let stop := if qNegB end₀ then qAdd end₀ (qInt s.length) else end₀
                        let lo := truncInt start
                        let hi := truncInt stop + 1
                        if 0 ≤ lo ∧ lo ≤ hi ∧ hi ≤ s.length then
                          .ok (.str (String.mk ((s.drop lo.toNat).take (hi - lo).toNat)))
                        else .error (.gopanic "runtime error: slice bounds out of range")
                | _ => .error (.gopanic "runtime error: index out of range")
              | _ =>
                if isNumber rv then
                  match toNumber noff nlen rv with
                  | .error e => .error e
                  | .ok idx₀ =>
                    match lv with
                    | .arr xs =>
                      let idx := if qNegB idx₀ then qAdd idx₀ (qInt xs.length) else idx₀
                      let i := truncInt idx
                      if 0 ≤ i ∧ i < xs.length then
                        .ok ((xs.get? i.toNat).getD .null)
                      else .error (.gopanic "runtime error: index out of range")
                    | _ =>
                      let s := (toStringGo lv).data
                      let idx := if qNegB idx₀ then qAdd idx₀ (qInt s.length) else idx₀
                      let i := truncInt idx
                      if 0 ≤ i ∧ i < s.length then
                        .ok (.str (String.mk [s.getD i.toNat ' ']))
                      else .error (.gopanic "runtime error: index out of range")
                else
                  .error (.err noff nlen ("array index must be number or slice " ++ toStringGo rv))
      | .slice =>
        -- case NodeSlice: evaluates both bounds and writes them into the
        -- node's own Value buffer (ast.Value.([]any)[0] = resultLeft; …),
        -- returning that buffer.
        let pl := runChild (run fuel strict) nl value
        match pl.1 with
        | .error e => (.error e, Node.mk nty nval noff nlen pl.2 nr)
        | .ok lv =>
          let pr := runChild (run fuel strict) nr value
          match pr.1 with
          | .error e => (.error e, Node.mk nty nval noff nlen pl.2 pr.2)
          | .ok rv =>
            match nval with
            | .arr vs =>
              if vs.length < 2 then
                (.error (.gopanic "runtime error: index out of range"),
                 Node.mk nty nval noff nlen pl.2 pr.2)
              else
                let vs' := (vs.set 0 lv).set 1 rv
                (.ok (.arr vs'), Node.mk nty (.arr vs') noff nlen pl.2 pr.2)
            | _ =>
              (.error (.gopanic "interface conversion: interface {} is not []interface {}"),
               Node.mk nty nval noff nlen pl.2 pr.2)
      | .literal =>
        -- case NodeLiteral.
        (.ok nval, Node.mk nty nval noff nlen nl nr)
      | .sign =>
        -- case NodeSign.
        let pr := runChild (run fuel strict) nr value
        let node' := Node.mk nty nval noff nlen nl pr.2
        match pr.1 with
        | .error e => (.error e, node')
        | .ok rv =>
          match toNumber noff nlen rv with
          | .error e => (.error e, node')
          | .ok q =>
            match nval with
            | .str sgn => (.ok (.float (if sgn = "-" then qNeg q else q)), node')
            | _ => (.error (.gopanic "interface conversion: interface {} is not string"), node')
      | .add | .subtract | .multiply | .divide | .modulus | .power =>
        -- case NodeAdd, NodeSubtract, NodeMultiply, NodeDivide,
        -- NodeModulus, NodePower.
        let pl := runChild (run fuel strict) nl value
        match pl.1 with
        | .error e => (.error e, Node.mk nty nval noff nlen pl.2 nr)
        | .ok lv =>
          let pr := runChild (run fuel strict) nr value
          let node' := Node.mk nty nval noff nlen pl.2 pr.2
          match pr.1 with
          | .error e => (.error e, node')
          | .ok rv =>
            (fun r => (r, node')) <|
            let addSpecial : Option Value :=
              if nty = .add then
                if isString lv || isString rv then
                  some (.str (toStringGo lv ++ toStringGo rv))
                else
                  match lv, rv with
                  | .arr xs, .arr ys => some (.arr (xs ++ ys))
                  | _, _ => none
              else none
            match addSpecial with
            | some v => .ok v
            | none =>
            if isNumber lv && isNumber rv then
              match toNumber (locOf pl.2).1 (locOf pl.2).2 lv with
              | .error e => .error e
              | .ok l =>
                match toNumber (locOf pr.2).1 (locOf pr.2).2 rv with
                | .error e => .error e
                | .ok r =>
                  match nty with
                  | .add => .ok (.float (qAdd l r))
                  | .subtract => .ok (.float (qSub l r))
                  | .multiply => .ok (.float (qMul l r))
                  | .divide =>
                    if qEqB r (qInt 0) then .error (.err noff nlen "cannot divide by zero")
                    else .ok (.float (qDiv l r))
                  | .modulus =>
                    if truncInt r = 0 then .error (.gopanic "runtime error: integer divide by zero")
                    else .ok (.int (tmodGo (truncInt l) (truncInt r)))
                  | _ => .ok (.float (powGo l r))
            else
              .error (.err noff nlen
                ("cannot add incompatible types " ++ toStringGo lv ++ " and " ++ toStringGo rv))
      | .equal | .notEqual | .lessThan | .lessThanEqual | .greaterThan | .greaterThanEqual =>
        -- case NodeEqual … NodeGreaterThanEqual.
        let pl := runChild (run fuel strict) nl value
        match pl.1 with
        | .error e => (.error e, Node.mk nty nval noff nlen pl.2 nr)
        | .ok lv =>
          let pr := runChild (run fuel strict) nr value
          let node' := Node.mk nty nval noff nlen pl.2 pr.2
          match pr.1 with
          | .error e => (.error e, node')
          | .ok rv =>
            (fun r => (r, node')) <|
            if nty = .equal then
              match goEq (normalizeGo lv) (normalizeGo rv) with
              | .error e => .error e
              | .ok b => .ok (.bool b)
            else if nty = .notEqual then
              match goEq (normalizeGo lv) (normalizeGo rv) with
              | .error e => .error e
              | .ok b => .ok (.bool !b)
            else
              match toNumber (locOf pl.2).1 (locOf pl.2).2 lv with
              | .error e => .error e
              | .ok l =>
                match toNumber (locOf pr.2).1 (locOf pr.2).2 rv with
                | .error e => .error e
                | .ok r =>
                  match nty with
                  | .greaterThan => .ok (.bool (qLtB r l))
                  | .greaterThanEqual => .ok (.bool (qLeB r l))
                  | .lessThan => .ok (.bool (qLtB l r))
                  | _ => .ok (.bool (qLeB l r))
      | .andOp | .orOp =>
        -- case NodeAnd, NodeOr: both sides evaluated, then truthiness.
        let pl := runChild (run fuel strict) nl value
        match pl.1 with
        | .error e => (.error e, Node.mk nty nval noff nlen pl.2 nr)
        | .ok lv =>
          let pr := runChild (run fuel strict) nr value
          let node' := Node.mk nty nval noff nlen pl.2 pr.2
          match pr.1 with
          | .error e => (.error e, node')
          | .ok rv =>
            if nty = .andOp then (.ok (.bool (toBool lv && toBool rv)), node')
            else (.ok (.bool (toBool lv || toBool rv)), node')
      | .inOp | .containsOp | .startsWith | .endsWith =>
        -- case NodeIn, NodeContains, NodeStartsWith, NodeEndsWith.
        let pl := runChild (run fuel strict) nl value
        match pl.1 with
        | .error e => (.error e, Node.mk nty nval noff nlen pl.2 nr)
        | .ok lv =>
          let pr := runChild (run fuel strict) nr value
          let node' := Node.mk nty nval noff nlen pl.2 pr.2
          match pr.1 with
          | .error e => (.error e, node')
          | .ok rv =>
            (fun r => (r, node')) <|
            match nty with
            | .inOp =>
              match rv with
              | .arr items =>
                match memGo lv items with
                | .error e => .error e
                | .ok b => .ok (.bool b)
              | .map m => .ok (.bool (mapHasNonNil m (toStringGo lv)))
              | _ => .ok (.bool (strContainsGo (toStringGo rv) (toStringGo lv)))
            | .containsOp =>
              match lv with
              | .arr items =>
                match memGo rv items with
                | .error e => .error e
                | .ok b => .ok (.bool b)
              | .map m => .ok (.bool (mapHasNonNil m (toStringGo rv)))
              | _ => .ok (.bool (strContainsGo (toStringGo lv) (toStringGo rv)))
            | .startsWith => .ok (.bool ((toStringGo lv).startsWith (toStringGo rv)))
            | _ => .ok (.bool ((toStringGo lv).endsWith (toStringGo rv)))
      | .notOp =>
        -- case NodeNot.
        let pr := runChild (run fuel strict) nr value
        let node' := Node.mk nty nval noff nlen nl pr.2
        match pr.1 with
        | .error e => (.error e, node')
        | .ok rv => (.ok (.bool (!toBool rv)), node')
      | .whereOp =>
        -- case NodeWhere: resultLeft.([]any) asserted, then the predicate
        -- loop (see whereLoop for the discarded-error behavior).
        let pl := runChild (run fuel strict) nl value
        match pl.1 with
        | .error e => (.error e, Node.mk nty nval noff nlen pl.2 nr)
        | .ok lv =>
          match lv with
          | .arr items =>
            let pw := whereLoop (runChild (run fuel strict)) nr items
            match pw.1 with
            | .error e => (.error e, Node.mk nty nval noff nlen pl.2 pw.2)
            | .ok vs => (.ok (.arr vs), Node.mk nty nval noff nlen pl.2 pw.2)
          | _ =>
            (.error (.gopanic "interface conversion: interface {} is not []interface {}"),
             Node.mk nty nval noff nlen pl.2 nr)
      | _ =>
        -- NodeBefore/NodeAfter/NodeUnknown have no case in this version of
        -- interpreter.go: the switch falls through to `return nil, nil`.
        (.ok .null, Node.mk nty nval noff nlen nl nr)
termination_by structural fuel => fuel

/-! ## lexer.go (src/unnamed/part_008, current revision)

The lexer of the current revision is only partly under src: part_008 and
part_009 are two earlier revisions.  Evidence in the repository pins the
current behavior: interpreter_test.go lexes `1_000_000` as one number and
expects the dangling quote in `0.5 + 1"` to lex as a string token (error
"expected eof but found string"), and interpreter.go consumes
where/contains/before/after node kinds that part_008's keyword table never
produces.  The definitions below follow part_008, with the missing pieces
modelled from the spec and marked as such. -/

/-- Token kinds (`TokenType`), including the `where` keyword the current
parser consumes (modelled from the spec, which folds `where` into the
keyword table). -/
inductive TokenType where
  | unknown
  | identifier
  | dot
  | number
  | string
  | leftParen
  | rightParen
  | leftBracket
  | rightBracket
  | slice
  | addSub
  | mulDiv
  | power
  | comparison
  | andTok
  | orTok
  | notTok
  | stringCompare
  | whereTok
  | eof
deriving DecidableEq

/-- The Go `TokenType` string constants, used in error messages. -/
def tokName : TokenType → String
  | .unknown => ""
  | .identifier => "identifier"
  | .dot => "dot"
  | .number => "number"
  | .string => "string"
  | .leftParen => "left-paren"
  | .rightParen => "right-paren"
  | .leftBracket => "left-bracket"
  | .rightBracket => "right-bracket"
  | .slice => "slice"
  | .addSub => "add-sub"
  | .mulDiv => "mul-div"
  | .power => "power"
  | .comparison => "comparison"
  | .andTok => "and"
  | .orTok => "or"
  | .notTok => "not"
  | .stringCompare => "in"
  | .whereTok => "where"
  | .eof => "eof"

/-- `Token{Type, Value, Offset}`.  Offsets count characters (Go counts
bytes; identical on the ASCII data of the claims). -/
structure Token where
  ty : TokenType
  value : String
  offset : Nat
deriving DecidableEq

/-- The `basic` single-character token table. -/
def basicTok : Char → Option TokenType
  | '.' => some .dot
  | '(' => some .leftParen
  | ')' => some .rightParen
  | '[' => some .leftBracket
  | ']' => some .rightBracket
  | ':' => some .slice
  | '+' => some .addSub
  | '-' => some .addSub
  | '*' => some .mulDiv
  | '/' => some .mulDiv
  | '%' => some .mulDiv
  | '^' => some .power
  | _ => none

/-- Whitespace skipped by `Next`. -/
def isSpaceCh (c : Char) : Bool :=
  c == ' ' || c == '\t' || c == '\r' || c == '\n'

/-- Modelled from the spec: the current `consumeNumber` loop condition.
part_008 stops at anything but `.` and digits; the spec (and the repo's own
`1_000_000` test) adds embedded `_` as a digit-group separator consumed
into the token. -/
def numCh (c : Char) : Bool :=
  c == '.' || c == '_' || c.isDigit

/-- Characters that end an identifier in `consumeIdentifier`. -/
def idStop (c : Char) : Bool :=
  (basicTok c).isSome || isSpaceCh c ||
  c == '<' || c == '>' || c == '=' || c == '!' || c == '.' || c == '[' || c == '('

/-- `consumeString`'s scan: runes up to an unescaped `"` (only `\"` is
recognized); end-of-input ends the string silently, exactly as in
part_008's loop (`if r == -1 || r == '"' { break }`), which the repo's
tests pin for the current revision too.  Returns the decoded content and
the remaining input. -/
def consumeStringCh : List Char → List Char → List Char × List Char
  | acc, [] => (acc.reverse, [])
  | acc, '\\' :: '"' :: rest => consumeStringCh ('"' :: acc) rest
  | acc, '"' :: rest => (acc.reverse, rest)
  | acc, c :: rest => consumeStringCh (c :: acc) rest

/-- `lexer.Next()`: skip whitespace, then classify by the first character.
`pos` is the absolute position of the first unconsumed character; returns
the token plus the rest of the input and the new position.  (part_008 keeps
this state in the lexer struct; the claims' error offsets give the `=`
error a length of 1.) -/
def lexNext (chars : List Char) (pos : Nat) : Except Err (Token × List Char × Nat) :=
  let ws := chars.takeWhile isSpaceCh
  let rest := chars.drop ws.length
  let p := pos + ws.length
  match rest with
  | [] => .ok ({ty := .eof, value := "", offset := p}, [], p)
  | c :: cs =>
    match basicTok c with
    | some bt =>
      if c == '.' && (cs.headD ' ').isDigit then
        .ok (lexNumber c cs (p + 1))
      else
        .ok ({ty := bt, value := String.mk [c], offset := p}, cs, p + 1)
    | none =>
      if c.isDigit then
        .ok (lexNumber c cs (p + 1))
      else if c == '<' || c == '>' || c == '!' then
        match cs with
        | '=' :: cs' =>
          .ok ({ty := .comparison, value := String.mk [c, '='], offset := p}, cs', p + 2)
        | _ =>
          .ok ({ty := .comparison, value := String.mk [c], offset := p}, cs, p + 1)
      else if c == '=' then
        match cs with
        | '=' :: cs' =>
          .ok ({ty := .comparison, value := "==", offset := p}, cs', p + 2)
        | _ => .error (.err (p + 1) 1 "= should be ==")
      else if c == '"' then
        let sc := consumeStringCh [] cs
        let used := cs.length - sc.2.length
        .ok ({ty := .string, value := String.mk sc.1, offset := p + 1 + used - sc.1.length},
             sc.2, p + 1 + used)
      else
        .ok (lexIdentifier c cs (p + 1))
where
  /-- `consumeNumber` (see `numCh` for the spec-modelled `_` clause). -/
  lexNumber (first : Char) (cs : List Char) (p1 : Nat) : Token × List Char × Nat :=
    let ds := cs.takeWhile numCh
    ({ty := .number, value := String.mk (first :: ds), offset := p1 - 1},
     cs.drop ds.length, p1 + ds.length)
  /-- `consumeIdentifier` with its keyword table.  part_008 classifies
  and/or/not/in/startsWith/endsWith; contains, before, after and where are
  modelled from the spec (interpreter.go and the type checker consume the
  node kinds they produce). -/
  lexIdentifier (first : Char) (cs : List Char) (p1 : Nat) : Token × List Char × Nat :=
    let ds := cs.takeWhile (fun c => !idStop c)
    let text := String.mk (first :: ds)
    let ty : TokenType :=
      if text == "and" then .andTok
      else if text == "or" then .orTok
      else if text == "not" then .notTok
      else if text == "in" || text == "contains" || text == "startsWith"
           || text == "endsWith" || text == "before" || text == "after" then .stringCompare
      else if text == "where" then .whereTok
      else .identifier
    ({ty := ty, value := text, offset := p1 - 1}, cs.drop ds.length, p1 + ds.length)

/-- Drive `lexNext` to end-of-input, collecting the tokens before the eof
token (fuelled by the remaining length: each call consumes at least one
character). -/
def lexAll : Nat → List Char → Nat → Except Err (List Token)
  | 0, _, _ => .error .fuelOut
  | fuel + 1, chars, pos =>
    match lexNext chars pos with
    | .error e => .error e
    | .ok (t, rest, pos') =>
      if t.ty = .eof then .ok []
      else
        match lexAll fuel rest pos' with
        | .error e => .error e
        | .ok ts => .ok (t :: ts)

/-- Lex a whole expression string. -/
def lexAllStr (s : String) : Except Err (List Token) :=
  lexAll (s.length + 1) s.data 0

/-! ## parser.go (src/unnamed/part_004, current revision)

The Pratt parser follows part_004's `parse`/`nud`/`led`/`ensure` structure.
The current revision's additions that part_004 predates are modelled from
the spec and marked below: the node span length, the keyword node kinds
(where/contains/before/after), the two-element bound buffer allocated in a
slice node's Value slot (§9: "stores computed slice bounds back onto the
AST node's literal-value slot"), the trailing-token check after a complete
parse, and an "unexpected token" error where part_004 returned a nil node. -/

/-- Parser state: the unconsumed input plus the one-token lookahead
(`parser.token`). -/
structure LexState where
  chars : List Char
  pos : Nat
  tok : Token

/-- `parser.advance()`. -/
def advance (st : LexState) : Except Err LexState :=
  match lexNext st.chars st.pos with
  | .error e => .error e
  | .ok (t, rest, pos') => .ok ⟨rest, pos', t⟩

/-- The `bindingPowers` table (absent token kinds bind at zero).  `where`
is modelled from the spec, grouped with the string-compare keywords. -/
def bindingPower : TokenType → Nat
  | .orTok => 1
  | .andTok => 2
  | .stringCompare => 3
  | .whereTok => 3
  | .comparison => 5
  | .slice => 5
  | .addSub => 10
  | .mulDiv => 15
  | .dot => 40
  | .notTok => 45
  | .power => 50
  | .leftBracket => 60
  | .leftParen => 70
  | _ => 0

/-- Decimal value of a digit string. -/
def digitsToNat (ds : List Char) : Nat :=
  ds.foldl (fun a c => 10 * a + (c.toNat - 48)) 0

/-- The number decoding done by the parser's `nud` for a number token:
Modelled from the spec for the underscore clause — embedded `_` separators
are ignored in the decoded value (`strconv.ParseFloat` after removing
them); the rest mirrors `ParseFloat` on the digit/dot texts the lexer can
produce (an integer part, at most one `.`, a fraction part; at least one
digit; anything else is a decode error). -/
def decodeNumber (s : String) : Except String GoNum :=
  let cs := s.data.filter (fun c => c != '_')
  let ip := cs.takeWhile (fun c => c != '.')
  let rest := cs.drop ip.length
  let fp := rest.drop 1
  if rest.length ≥ 1 && !(rest.headD ' ' == '.') then .error "invalid syntax"
  else if fp.any (fun c => c == '.') then .error "invalid syntax"
  else if !(ip.all Char.isDigit) || !(fp.all Char.isDigit) then .error "invalid syntax"
  else if ip.isEmpty && fp.isEmpty then .error "invalid syntax"
  else .ok ⟨(digitsToNat ip) * 10 ^ fp.length + digitsToNat fp, (10 : Int) ^ fp.length⟩

/-- `parser.ensure(result, err, typ)`: expect the current token, advance
past it. -/
def ensureTok (result : Node) (st : LexState) (typ : TokenType) : Except Err (Node × LexState) :=
  if st.tok.ty = typ then
    match advance st with
    | .error e => .error e
    | .ok st' => .ok (result, st')
  else
    .error (.err st.tok.offset 1 ("expected " ++ tokName typ ++ " but found " ++ tokName st.tok.ty))

/-- `newNodeParseRight`: build a binary node whose right subtree is parsed
at the given binding power. -/
def parseRightF (pe : LexState → Nat → Except Err (Node × LexState))
    (left : Node) (t : Token) (typ : NodeType) (val : Value) (bp : Nat) (st : LexState) :
    Except Err (Node × LexState) :=
  match pe st bp with
  | .error e => .error e
  | .ok (right, st') =>
    .ok (Node.mk typ val t.offset t.value.length (some left) (some right), st')

/-- `parser.nud(t)`: prefix handlers.  `pe` is the recursive
`parser.parse`. -/
def nudF (pe : LexState → Nat → Except Err (Node × LexState)) (t : Token) (st : LexState) :
    Except Err (Node × LexState) :=
  match t.ty with
  | .identifier =>
    .ok (Node.mk .identifier (.str t.value) t.offset t.value.length none none, st)
  | .number =>
    match decodeNumber t.value with
    | .error m => .error (.err st.tok.offset 1 m)
    | .ok q => .ok (Node.mk .literal (.float q) t.offset t.value.length none none, st)
  | .string =>
    .ok (Node.mk .literal (.str t.value) t.offset t.value.length none none, st)
  | .leftParen =>
    match pe st 0 with
    | .error e => .error e
    | .ok (n, st') => ensureTok n st' .rightParen
  | .notTok =>
    match pe st (bindingPower .notTok) with
    | .error e => .error e
    | .ok (n, st') => .ok (Node.mk .notOp .null t.offset t.value.length none (some n), st')
  | .addSub =>
    match pe st (bindingPower .addSub) with
    | .error e => .error e
    | .ok (n, st') => .ok (Node.mk .sign (.str t.value) t.offset t.value.length none (some n), st')
  | .slice =>
    -- a leading `:` inside brackets: dummy literal-0 left bound; the
    -- two-slot bound buffer in the Value is modelled from the spec (§9).
    match pe st (bindingPower .slice) with
    | .error e => .error e
    | .ok (n, st') =>
      .ok (Node.mk .slice (.arr [.null, .null]) t.offset t.value.length
            (some (Node.mk .literal (.float (qInt 0)) t.offset 1 none none)) (some n), st')
  | .eof => .error (.err t.offset 1 "incomplete expression, EOF found")
  | _ => .error (.err t.offset 1 ("unexpected " ++ tokName t.ty))

/-- `parser.led(t, n)`: infix handlers. -/
def ledF (pe : LexState → Nat → Except Err (Node × LexState)) (t : Token) (left : Node)
    (st : LexState) : Except Err (Node × LexState) :=
  match t.ty with
  | .addSub | .mulDiv =>
    let typ : NodeType :=
      match t.value.data.headD ' ' with
      | '+' => .add
      | '-' => .subtract
      | '*' => .multiply
      | '/' => .divide
      | _ => .modulus
    parseRightF pe left t typ .null (bindingPower t.ty) st
  | .power =>
    -- right-associative: recurse at power - 1
    parseRightF pe left t .power .null (bindingPower .power - 1) st
  | .comparison =>
    let typ : NodeType :=
      if t.value == "==" then .equal
      else if t.value == "!=" then .notEqual
      else if t.value == "<" then .lessThan
      else if t.value == "<=" then .lessThanEqual
      else if t.value == ">" then .greaterThan
      else .greaterThanEqual
    parseRightF pe left t typ .null (bindingPower t.ty) st
  | .andTok => parseRightF pe left t .andOp .null (bindingPower t.ty) st
  | .orTok => parseRightF pe left t .orOp .null (bindingPower t.ty) st
  | .stringCompare =>
    let typ : NodeType :=
      if t.value == "in" then .inOp
      else if t.value == "contains" then .containsOp
      else if t.value == "startsWith" then .startsWith
      else if t.value == "endsWith" then .endsWith
      else if t.value == "before" then .before
      else .after
    parseRightF pe left t typ .null (bindingPower t.ty) st
  | .whereTok => parseRightF pe left t .whereOp .null (bindingPower t.ty) st
  | .dot => parseRightF pe left t .fieldSelect .null (bindingPower t.ty) st
  | .leftBracket =>
    match parseRightF pe left t .arrayIndex .null 0 st with
    | .error e => .error e
    | .ok (n, st') => ensureTok n st' .rightBracket
  | .slice => parseRightF pe left t .slice (.arr [.null, .null]) (bindingPower t.ty) st
  | _ => .error (.err t.offset 1 ("unexpected " ++ tokName t.ty))

/-- The `for bindingPower < bindingPowers[currentToken.Type]` loop of
`parser.parse`, fuelled by the remaining input (each iteration consumes at
least one token). -/
def ledLoop (pe : LexState → Nat → Except Err (Node × LexState)) :
    Nat → Node → LexState → Nat → Except Err (Node × LexState)
  | 0, _, _, _ => .error .fuelOut
  | k + 1, left, st, minBp =>
    let ct := st.tok
    if minBp < bindingPower ct.ty then
      match advance st with
      | .error e => .error e
      | .ok st' =>
        match ledF pe ct left st' with
        | .error e => .error e
        | .ok (left', st'') => ledLoop pe k left' st'' minBp
    else .ok (left, st)

/-- `parser.parse(bindingPower)`: consume the current token, build its nud
node, then fold led handlers while the next token binds tighter. -/
def parseExpr : Nat → LexState → Nat → Except Err (Node × LexState)
  | 0, _, _ => .error .fuelOut
  | fuel + 1, st, minBp =>
    let t := st.tok
    match advance st with
    | .error e => .error e
    | .ok st' =>
      match nudF (parseExpr fuel) t st' with
      | .error e => .error e
      | .ok (left, st'') => ledLoop (parseExpr fuel) (fuel + 1) left st'' minBp
termination_by structural fuel => fuel

/-- `parser.Parse()`: prime the lookahead, parse at binding power 0, and —
modelled from the spec ("trailing tokens after a complete expression") and
the repo's "expected eof but found …" tests — require the remaining token
to be eof. -/
def parseStr (s : String) : Except Err Node :=
  match advance ⟨s.data, 0, {ty := .unknown, value := "", offset := 0}⟩ with
  | .error e => .error e
  | .ok st1 =>
    match parseExpr (s.length + 10) st1 0 with
    | .error e => .error e
    | .ok (n, st2) =>
      if st2.tok.ty = .eof then .ok n
      else .error (.err st2.tok.offset 1 ("expected eof but found " ++ tokName st2.tok.ty))

/-- `mexpr.Eval` without type checking: parse, then interpret (expr.go's
`Eval` composes `Parse(expression, nil)` and `Run`).  The interpreter fuel
comfortably exceeds any claim program's depth. -/
def evalStr (strict : Bool) (s : String) (input : Value) : Except Err Value :=
  match parseStr s with
  | .error e => .error e
  | .ok ast => (run 64 strict ast input).1

/-! ## Statement-side notions and shared lemmas -/

/-- Statement helper: is the value a Go map. -/
def isMapV : Value → Bool
  | .map _ => true
  | _ => false

/-- Spec-side notion for the `==`/`!=` claim: structural value equality of
two non-container values after numeric-width normalization (numbers by
represented value, booleans/strings/byte-text by content). -/
def scalarEq : Value → Value → Bool
  | .null, .null => true
  | .bool a, .bool b => decide (a = b)
  | .int a, .int b => decide (a = b)
  | .float p, .float q => qEqB p q
  | .str a, .str b => decide (a = b)
  | .bytes a, .bytes b => decide (a = b)
  | _, _ => false

theorem takeWhileAll {p : Char → Bool} :
    ∀ l : List Char, (∀ c ∈ l, p c = true) → l.takeWhile p = l := by
  intro l h
  induction l with
  | nil => rfl
  | cons c cs ih =>
    simp only [List.takeWhile_cons, h c (by simp)]
    simp [ih (fun x hx => h x (by simp [hx]))]

theorem basicTok_of_digit {c : Char} (h : c.isDigit = true) : basicTok c = none := by
  unfold basicTok
  split <;> simp_all

theorem beq_false_of_digit {c d : Char} (h : c.isDigit = true) (hd : d.isDigit = false) :
    (c == d) = false := by
  by_cases hcd : c = d
  · subst hcd; simp_all
  · simp [beq_iff_eq, hcd]

theorem isSpaceCh_of_digit {c : Char} (h : c.isDigit = true) : isSpaceCh c = false := by
  simp [isSpaceCh,
    beq_false_of_digit h (d := ' ') (by decide),
    beq_false_of_digit h (d := '\t') (by decide),
    beq_false_of_digit h (d := '\r') (by decide),
    beq_false_of_digit h (d := '\n') (by decide)]

theorem numCh_of {c : Char} (h : c.isDigit = true ∨ c = '_') : numCh c = true := by
  rcases h with h | h
  · simp [numCh, h]
  · subst h; rfl

theorem filter_underscore_digits : ∀ l : List Char, (∀ c ∈ l, c.isDigit = true ∨ c = '_') →
    l.filter (fun c => c != '_') = l.filter Char.isDigit := by
  intro l h
  induction l with
  | nil => rfl
  | cons c cs ih =>
    have hc := h c (by simp)
    have ihs := ih (fun x hx => h x (by simp [hx]))
    rcases hc with hd | hu
    · have hne : (c != '_') = true := by
        simp only [bne_iff_ne, ne_eq]
        intro hh
        subst hh
        simp_all
      simp [List.filter_cons, hne, hd, ihs]
    · subst hu
      simp [List.filter_cons, ihs]

theorem consumeStringCh_no_quote : ∀ s acc : List Char, '"' ∉ s → '\\' ∉ s →
    consumeStringCh acc s = (acc.reverse ++ s, []) := by
  intro s
  induction s with
  | nil => intro acc _ _; simp [consumeStringCh]
  | cons c rest ih =>
    intro acc hq hb
    have hc1 : ¬(c = '"') := fun h => hq (by simp [h])
    have hc2 : ¬(c = '\\') := fun h => hb (by simp [h])
    have hq' : '"' ∉ rest := fun h => hq (by simp [h])
    have hb' : '\\' ∉ rest := fun h => hb (by simp [h])
    rw [consumeStringCh.eq_def]
    cases rest with
    | nil => simp [hc1, hc2, ih [] hq' hb', consumeStringCh]
    | cons c2 r2 => simp [hc1, hc2, ih _ hq' hb']

/-! ## Claims -/

/-- Input `{a: [1, 2, 3, 4]}` used by the slice-mutation claim. -/
def c1Input : Value :=
  .map [("a", .arr [.float ⟨1, 1⟩, .float ⟨2, 1⟩, .float ⟨3, 1⟩, .float ⟨4, 1⟩])]

/-- The AST the parser produces for `a[1:2]`: the slice node's Value buffer
holds the two unevaluated slots. -/
def c1Before : Node :=
  .mk .arrayIndex .null 1 1
    (some (.mk .identifier (.str "a") 0 1 none none))
    (some (.mk .slice (.arr [.null, .null]) 3 1
      (some (.mk .literal (.float ⟨1, 1⟩) 2 1 none none))
      (some (.mk .literal (.float ⟨2, 1⟩) 4 1 none none))))

/-- The same tree after one Run: the interpreter wrote the evaluated bounds
into the slice node's Value buffer. -/
def c1After : Node :=
  .mk .arrayIndex .null 1 1
    (some (.mk .identifier (.str "a") 0 1 none none))
    (some (.mk .slice (.arr [.float ⟨1, 1⟩, .float ⟨2, 1⟩]) 3 1
      (some (.mk .literal (.float ⟨1, 1⟩) 2 1 none none))
      (some (.mk .literal (.float ⟨2, 1⟩) 4 1 none none))))

/-- Claim C1: the spec requires that running the interpreter never mutates
any AST node (the tree after Run is identical to the tree before Run).  The
code violates this: `interpreter.run`'s NodeSlice case executes
`ast.Value.([]any)[0] = resultLeft; ast.Value.([]any)[1] = resultRight` and
returns that buffer, so running the parsed program `a[1:2]` against
`{a: [1,2,3,4]}` rewrites the slice node's Value from `[nil, nil]` to
`[1, 2]`: the tree after Run differs from the tree before. -/
theorem run_writes_slice_bounds_into_ast :
    parseStr "a[1:2]" = .ok c1Before ∧
    (run 64 false c1Before c1Input).2 = c1After ∧
    c1Before ≠ c1After :=
  ⟨rfl, rfl, by simp [c1Before, c1After]⟩

/-- Claim C2: the spec says an out-of-range index (after negative-index
normalization) is a runtime error.  The interpreter's numeric-index branch
(`return left[int(idx)]`, and the byte access for strings) has no bounds
check, so an out-of-range index is a Go index-out-of-range panic — a crash,
not a returned error.  The repo's own tests (interpreter_test.go: `a[0]`
against `{"a": []}`, expecting the error "invalid index") pin the intended
behavior, which the cited code contradicts. -/
theorem index_out_of_range_panics :
    evalStr false "a[0]" (.map [("a", .arr [])]) =
      .error (.gopanic "runtime error: index out of range") ∧
    evalStr false "a[5]" (.map [("a", .str "hi")]) =
      .error (.gopanic "runtime error: index out of range") :=
  ⟨rfl, rfl⟩

/-- Claim C3: slice bounds are inclusive of both ends and negative bounds
normalize by adding the container length: against `{a: [1,2,3,4]}`,
`a[1:2]` = `[2,3]`, `a[-1]` = `4`, and `a[:-1]` = `[1,2,3,4]`. -/
theorem slice_inclusive_and_negative_examples :
    evalStr false "a[1:2]" c1Input = .ok (.arr [.float ⟨2, 1⟩, .float ⟨3, 1⟩]) ∧
    evalStr false "a[-1]" c1Input = .ok (.float ⟨4, 1⟩) ∧
    evalStr false "a[:-1]" c1Input =
      .ok (.arr [.float ⟨1, 1⟩, .float ⟨2, 1⟩, .float ⟨3, 1⟩, .float ⟨4, 1⟩]) :=
  ⟨rfl, rfl, rfl⟩

/-- Claim C4: parsing respects the bindingPowers precedence table and power
is right-associative (led recurses at `power - 1`): `1 + 2 * 3` evaluates
to 7, `(1 + 2) * 3` to 9, and `2^3^2` to 512 (= 2^9, not 8^2 = 64). -/
theorem precedence_and_right_assoc_power :
    evalStr false "1 + 2 * 3" .null = .ok (.float ⟨7, 1⟩) ∧
    evalStr false "(1 + 2) * 3" .null = .ok (.float ⟨9, 1⟩) ∧
    evalStr false "2^3^2" .null = .ok (.float ⟨512, 1⟩) :=
  ⟨rfl, rfl, rfl⟩

set_option exponentiation.threshold 2048 in
/-- Claim C5 counterexample: division by a non-zero divisor can return a
non-finite float64 result.  Against `{a: 2^1023, b: 0.5}` — both exactly
representable float64 values a caller can pass — `a / b` reaches the plain
division (the divisor is non-zero, so no divide-by-zero error is
returned), and the exact quotient 2^1024 is past the float64 overflow
threshold, so the program's float64 division yields +Inf: a non-finite
numeric result, refuting the claim's "never non-finite" clause. -/
theorem division_overflows_to_infinity :
    evalStr false "a / b"
        (.map [("a", .float ⟨((2 ^ 1023 : Nat) : Int), 1⟩), ("b", .float ⟨1, 2⟩)]) =
      .ok (.float (qDiv ⟨((2 ^ 1023 : Nat) : Int), 1⟩ ⟨1, 2⟩)) ∧
    qEqB (⟨1, 2⟩ : GoNum) (qInt 0) = false ∧
    float64Div ⟨((2 ^ 1023 : Nat) : Int), 1⟩ ⟨1, 2⟩ = .posInf :=
  ⟨rfl, rfl, by decide⟩

/-- Claim C5 (amended): whenever both operands of a division are numeric
and the right operand's value is zero, the NodeDivide case returns the
"cannot divide by zero" error located at the division node — the zero
check runs before the float64 division, so a zero divisor can never
produce an Inf or NaN; with a non-zero divisor the division is performed
and returns the quotient (stated here over the exact-valued model; the
float64 value the program computes for that quotient is `float64Div` of
the operands, which `division_overflows_to_infinity` shows can be +Inf —
the original claim's "division never returns a non-finite result" clause
is false of the program). -/
theorem divide_by_zero_is_error
    (fuel : Nat) (strict : Bool) (L R L' R' : Node) (v vl vr : Value) (nval : Value)
    (off len : Nat) (ql qr : GoNum)
    (hL : run fuel strict L v = (.ok vl, L'))
    (hR : run fuel strict R v = (.ok vr, R'))
    (hln : toNumber L'.offset L'.length vl = .ok ql)
    (hrn : toNumber R'.offset R'.length vr = .ok qr) :
    (qEqB qr (qInt 0) = true →
      (run (fuel + 1) strict (.mk .divide nval off len (some L) (some R)) v).1
        = .error (.err off len "cannot divide by zero")) ∧
    (qEqB qr (qInt 0) = false →
      (run (fuel + 1) strict (.mk .divide nval off len (some L) (some R)) v).1
        = .ok (.float (qDiv ql qr))) := by
  cases vl <;> cases vr <;>
    simp_all [run, runChild, toNumber, locOf, isNumber, Node.offset, Node.length]

/-- Witness for `divide_by_zero_is_error` at `1 / 0` and `1 / 2`. -/
theorem divide_by_zero_is_error_witness :
    (run 2 false (.mk .divide .null 0 1
        (some (.mk .literal (.float ⟨1, 1⟩) 0 1 none none))
        (some (.mk .literal (.float ⟨0, 1⟩) 2 1 none none))) .null).1
      = .error (.err 0 1 "cannot divide by zero") ∧
    (run 2 false (.mk .divide .null 0 1
        (some (.mk .literal (.float ⟨1, 1⟩) 0 1 none none))
        (some (.mk .literal (.float ⟨2, 1⟩) 2 1 none none))) .null).1
      = .ok (.float (qDiv ⟨1, 1⟩ ⟨2, 1⟩)) :=
  ⟨(divide_by_zero_is_error 1 false
      (.mk .literal (.float ⟨1, 1⟩) 0 1 none none)
      (.mk .literal (.float ⟨0, 1⟩) 2 1 none none)
      (.mk .literal (.float ⟨1, 1⟩) 0 1 none none)
      (.mk .literal (.float ⟨0, 1⟩) 2 1 none none)
      .null (.float ⟨1, 1⟩) (.float ⟨0, 1⟩) .null 0 1 ⟨1, 1⟩ ⟨0, 1⟩
      rfl rfl rfl rfl).1 rfl,
   (divide_by_zero_is_error 1 false
      (.mk .literal (.float ⟨1, 1⟩) 0 1 none none)
      (.mk .literal (.float ⟨2, 1⟩) 2 1 none none)
      (.mk .literal (.float ⟨1, 1⟩) 0 1 none none)
      (.mk .literal (.float ⟨2, 1⟩) 2 1 none none)
      .null (.float ⟨1, 1⟩) (.float ⟨2, 1⟩) .null 0 1 ⟨1, 1⟩ ⟨2, 1⟩
      rfl rfl rfl rfl).2 rfl⟩

/-- Claim C6 counterexample: `==` does not implement structural equality on
containers.  When both operands are arrays (here both equal to `[1]`), the
Go comparison `normalize(l) == normalize(r)` compares two interfaces of the
same uncomparable dynamic type and panics at run time instead of returning
true. -/
theorem equal_on_arrays_panics :
    evalStr false "a == b"
        (.map [("a", .arr [.float ⟨1, 1⟩]), ("b", .arr [.float ⟨1, 1⟩])]) =
      .error (.gopanic "comparing uncomparable type []interface {}") :=
  rfl

/-- Claim C6 (amended): `==`/`!=` compare by structural value equality
after numeric-width normalization for non-container operands (all
integer-like kinds as one floating kind, byte buffers as text); when both
operands are arrays or both are maps, evaluation panics (Go comparison of
uncomparable dynamic types) instead of comparing structurally, and a
container compared with a value of any other kind is simply unequal. -/
theorem equal_scalar_value_equality
    (fuel : Nat) (strict : Bool) (L R L' R' : Node) (v vl vr : Value) (nval : Value)
    (off len : Nat)
    (hL : run fuel strict L v = (.ok vl, L'))
    (hR : run fuel strict R v = (.ok vr, R'))
    (harr : (isSlice vl && isSlice vr) = false)
    (hmap : (isMapV vl && isMapV vr) = false) :
    (run (fuel + 1) strict (.mk .equal nval off len (some L) (some R)) v).1
      = .ok (.bool (scalarEq (normalizeGo vl) (normalizeGo vr))) ∧
    (run (fuel + 1) strict (.mk .notEqual nval off len (some L) (some R)) v).1
      = .ok (.bool (!scalarEq (normalizeGo vl) (normalizeGo vr))) := by
  cases vl <;> cases vr <;>
    simp_all [run, runChild, goEq, normalizeGo, scalarEq, isSlice, isMapV, qEqB]

/-- Witness for `equal_scalar_value_equality`: `int 3 == float 3` is true
after normalization, and `!=` is its negation. -/
theorem equal_scalar_value_equality_witness :
    (run 2 false (.mk .equal .null 0 1
        (some (.mk .literal (.int 3) 0 1 none none))
        (some (.mk .literal (.float ⟨3, 1⟩) 2 1 none none))) .null).1
      = .ok (.bool true) ∧
    (run 2 false (.mk .notEqual .null 0 1
        (some (.mk .literal (.int 3) 0 1 none none))
        (some (.mk .literal (.float ⟨3, 1⟩) 2 1 none none))) .null).1
      = .ok (.bool false) :=
  ⟨Eq.trans
    (equal_scalar_value_equality 1 false
      (.mk .literal (.int 3) 0 1 none none)
      (.mk .literal (.float ⟨3, 1⟩) 2 1 none none)
      (.mk .literal (.int 3) 0 1 none none)
      (.mk .literal (.float ⟨3, 1⟩) 2 1 none none)
      .null (.int 3) (.float ⟨3, 1⟩) .null 0 1 rfl rfl rfl rfl).1 rfl,
   Eq.trans
    (equal_scalar_value_equality 1 false
      (.mk .literal (.int 3) 0 1 none none)
      (.mk .literal (.float ⟨3, 1⟩) 2 1 none none)
      (.mk .literal (.int 3) 0 1 none none)
      (.mk .literal (.float ⟨3, 1⟩) 2 1 none none)
      .null (.int 3) (.float ⟨3, 1⟩) .null 0 1 rfl rfl rfl rfl).2 rfl⟩

/-- Claim C7: the spec says that in strict mode a predicate error inside a
`where` filter aborts the whole filter and is returned.  The code does
not: the NodeWhere loop discards the predicate's error
(`resultRight, _ := i.run(ast.Right, item)`), and its
`if i.strict && err != nil` guard tests the stale outer `err`, which is
necessarily nil there — dead code that shows the abort was intended.  In
strict mode, the failing element (`missing` cannot be resolved in `{}`) is
silently excluded and the filter returns `[]` instead of the error. -/
theorem strict_where_swallows_predicate_error :
    evalStr true "items where missing" (.map [("items", .arr [.map []])]) =
      .ok (.arr []) :=
  rfl

/-- Claim C8: the current lexer consumes embedded underscores inside a
number token as digit-group separators, and the decoded literal value
ignores them: for every non-empty digit-or-underscore string starting with
a digit (and with no decimal point), one `Next()` call returns a single
number token spanning the whole string, and decoding it yields exactly the
number formed by the digits with the underscores removed.  (The lexer
revisions under src predate underscore support; the numeric handling is
modelled from the spec, which the repo's `1_000_000` test pins.) -/
theorem lex_number_with_underscores (ds : List Char)
    (hhead : (ds.headD '0').isDigit = true)
    (hne : ds ≠ [])
    (hall : ∀ c ∈ ds, c.isDigit = true ∨ c = '_')
    (hnodot : ∀ c ∈ ds, c = '.' → False) :
    lexNext ds 0 = .ok ({ty := .number, value := String.mk ds, offset := 0}, [], ds.length) ∧
    decodeNumber (String.mk ds) = .ok (qInt (digitsToNat (ds.filter Char.isDigit))) := by
  match ds, hne with
  | d :: tail, _ =>
    have hd : d.isDigit = true := by simpa using hhead
    have htail : ∀ c ∈ tail, c.isDigit = true ∨ c = '_' := fun c hc => hall c (by simp [hc])
    constructor
    · have hsp : isSpaceCh d = false := isSpaceCh_of_digit hd
      have hws : (d :: tail).takeWhile isSpaceCh = [] := by
        simp [List.takeWhile_cons, hsp]
      have htw : tail.takeWhile numCh = tail :=
        takeWhileAll tail (fun c hc => numCh_of (htail c hc))
      simp only [lexNext, hws]
      simp [basicTok_of_digit hd, hd, lexNext.lexNumber, htw, List.drop_length]
      omega
    · have hfilter : (d :: tail).filter (fun c => c != '_') = (d :: tail).filter Char.isDigit :=
        filter_underscore_digits _ hall
      have hdigits : ∀ c ∈ (d :: tail).filter Char.isDigit, c.isDigit = true := by
        intro c hc
        exact (List.mem_filter.mp hc).2
      have hnd : ∀ c ∈ (d :: tail).filter Char.isDigit, (c != '.') = true := by
        intro c hc
        have := hnodot c (List.mem_of_mem_filter hc)
        simp only [bne_iff_ne, ne_eq]
        exact this
      have htw2 : ((d :: tail).filter Char.isDigit).takeWhile (fun c => c != '.') =
          (d :: tail).filter Char.isDigit := takeWhileAll _ hnd
      have hnonempty : (d :: tail).filter Char.isDigit ≠ [] := by
        have : d ∈ (d :: tail).filter Char.isDigit := List.mem_filter.mpr ⟨by simp, hd⟩
        intro hcon
        simp [hcon] at this
      simp only [decodeNumber]
      simp only [hfilter, htw2, List.drop_length]
      simp [hnonempty, List.all_eq_true.mpr hdigits, qInt, digitsToNat]

/-- Witness for `lex_number_with_underscores` at `1_000_000`. -/
theorem lex_number_with_underscores_witness :
    lexNext "1_000_000".data 0 =
      .ok ({ty := .number, value := String.mk "1_000_000".data, offset := 0}, [],
           "1_000_000".data.length) ∧
    decodeNumber (String.mk "1_000_000".data) =
      .ok (qInt (digitsToNat ("1_000_000".data.filter Char.isDigit))) :=
  lex_number_with_underscores "1_000_000".data (by decide) (by decide)
    (by decide) (by decide)

/-- Claim C9 counterexample: lexing a string literal whose closing quote is
missing does not produce a lex error — `consumeString` breaks out of its
loop at end-of-input and returns a successfully decoded string token (the
repo's own `0.5 + 1"` test relies on this: the error it expects is the
later parse-level "expected eof but found string", not a lex error). -/
theorem unterminated_string_lexes_to_token :
    lexAllStr "\"abc" = .ok [{ty := .string, value := "abc", offset := 1}] ∧
    evalStr false "0.5 + 1\"" .null = .error (.err 8 1 "expected eof but found string") :=
  ⟨rfl, rfl⟩

/-- Claim C9 (amended): lexing a string literal with a missing closing
quote silently ends the string at end-of-input and yields a string token
holding the consumed characters; no lex error is produced (any error
surfaces later at the parser as an expected-eof failure). -/
theorem lexNext_unterminated_string_returns_token (s : List Char)
    (hq : '"' ∉ s) (hb : '\\' ∉ s) :
    lexNext ('"' :: s) 0 =
      .ok ({ty := .string, value := String.mk s, offset := 1}, [], s.length + 1) := by
  have hws : List.takeWhile isSpaceCh ('"' :: s) = [] := by
    rw [List.takeWhile_cons]
    simp [show isSpaceCh '"' = false from rfl]
  simp only [lexNext, hws]
  simp [consumeStringCh_no_quote s [] hq hb, show basicTok '"' = none from rfl, Nat.add_comm]

/-- Witness for `lexNext_unterminated_string_returns_token` at `"abc`. -/
theorem lexNext_unterminated_string_returns_token_witness :
    lexNext ('"' :: "abc".data) 0 =
      .ok ({ty := .string, value := String.mk "abc".data, offset := 1}, [],
           "abc".data.length + 1) :=
  lexNext_unterminated_string_returns_token "abc".data (by decide) (by decide)

/-- Claim C10: when the right operand of `in` (or the left operand of
`contains`) is a map, membership is decided by `m[key] != nil`: a key that
is present but stored with a nil value is reported as absent (false). -/
theorem map_membership_ignores_null_values
    (fuel : Nat) (strict : Bool) (L R L' R' : Node) (v vk : Value) (nval : Value)
    (off len : Nat) (m : List (String × Value))
    (hL : run fuel strict L v = (.ok vk, L'))
    (hR : run fuel strict R v = (.ok (.map m), R'))
    (hnull : m.lookup (toStringGo vk) = some .null) :
    (run (fuel + 1) strict (.mk .inOp nval off len (some L) (some R)) v).1
      = .ok (.bool false) ∧
    (run (fuel + 1) strict (.mk .containsOp nval off len (some R) (some L)) v).1
      = .ok (.bool false) := by
  constructor <;>
  · simp only [run, runChild, hL, hR]
    simp [mapHasNonNil, hnull]

/-- Witness for `map_membership_ignores_null_values`: the key `"k"` is
present in `{k: nil}` but `"k" in {k: nil}` and `{k: nil} contains "k"`
are both false. -/
theorem map_membership_ignores_null_values_witness :
    (run 2 false (.mk .inOp .null 0 1
        (some (.mk .literal (.str "k") 0 1 none none))
        (some (.mk .literal (.map [("k", .null)]) 2 1 none none))) .null).1
      = .ok (.bool false) ∧
    (run 2 false (.mk .containsOp .null 0 1
        (some (.mk .literal (.map [("k", .null)]) 2 1 none none))
        (some (.mk .literal (.str "k") 0 1 none none))) .null).1
      = .ok (.bool false) :=
  map_membership_ignores_null_values 1 false
    (.mk .literal (.str "k") 0 1 none none)
    (.mk .literal (.map [("k", .null)]) 2 1 none none)
    (.mk .literal (.str "k") 0 1 none none)
    (.mk .literal (.map [("k", .null)]) 2 1 none none)
    .null (.str "k") .null 0 1 [("k", .null)] rfl rfl rfl
